import Mathlib

/-!
Verification development for the S3 weekly report / e-mail notification
lambdas.  The definitions below are shallow embeddings of the Python
sources (`current_lambda_new_feature.py`, `lambda2.py`, `lambda_nodata.py`,
`lambda_helper.py`): Python strings are Lean `String`s, Python lists are
Lean `List`s, fallible code returns `Except`, and the effect of the run is
reified as the ordered list of e-mails it attempts to send.  Python string
primitives (`strip`, `replace`, `lower`, `join`, ...) are re-implemented
over `List Char` so that every definition evaluates by kernel reduction.
-/

namespace S3EmailReport

/-! ## Python string primitives -/

/-- The ASCII whitespace characters stripped by Python `str.strip()`. -/
def isSpaceChar (c : Char) : Bool :=
  c = ' ' || c = '\t' || c = '\n' || c = '\r' || c = Char.ofNat 11 || c = Char.ofNat 12

/-- Python `s.strip()`: remove leading and trailing whitespace. -/
def pyStrip (s : String) : String :=
  String.mk (((s.data.dropWhile isSpaceChar).reverse.dropWhile isSpaceChar).reverse)

/-- Python `s.lstrip("/")`: remove all leading forward slashes. -/
def pyLstripSlash (s : String) : String :=
  String.mk (s.data.dropWhile (fun c => c = '/'))

/-- Python `s.startswith(pre)`. -/
def pyStartsWith (s pre : String) : Bool :=
  pre.data.isPrefixOf s.data

/-- Python `s.endswith(suf)`. -/
def pyEndsWith (s suf : String) : Bool :=
  suf.data.isSuffixOf s.data

/-- Python `s.lower()` (ASCII case folding). -/
def pyLower (s : String) : String :=
  String.mk (s.data.map Char.toLower)

/-- Python `s[n:]`. -/
def pyDrop (s : String) (n : Nat) : String :=
  String.mk (s.data.drop n)

/-- Python `sep.join(xs)`. -/
def joinWith (sep : String) : List String → String
  | [] => ""
  | [x] => x
  | x :: y :: xs => x ++ sep ++ joinWith sep (y :: xs)

/-- Worker for `pyReplace`: scans the character list left to right,
replacing each (non-overlapping) occurrence of `pat`.  The `fuel`
argument makes the recursion structural; it is initialised to the length
of the scanned list, which suffices because every step consumes at least
one character. -/
def replaceChars (pat rep : List Char) : Nat → List Char → List Char
  | _, [] => []
  | 0, rest => rest
  | fuel + 1, c :: rest =>
    if pat.isPrefixOf (c :: rest) then
      rep ++ replaceChars pat rep fuel ((c :: rest).drop pat.length)
    else
      c :: replaceChars pat rep fuel rest

/-- Python `s.replace(pat, rep)` for a non-empty pattern: replaces every
non-overlapping occurrence, scanning left to right. -/
def pyReplace (s pat rep : String) : String :=
  String.mk (replaceChars pat.data rep.data s.data.length s.data)

/-! ## Delivery service (`lambda2.py`, `send_email_with_failover`)

The SMTP transport is the external collaborator: it is modelled as a
function `attempt : String → Except String Unit` giving, per host, either
success or the textual representation of the raised exception.  The
source iterates `[SMTP_HOST_1, SMTP_HOST_2]`, skips empty entries, returns
at the first host that does not raise, accumulates one error line per
failing host, and finally raises a single aggregated `RuntimeError`.
On success the embedding returns the host used together with the error
lines accumulated so far (observable in the source via its log lines). -/

def send_email_with_failover (attempt : String → Except String Unit) :
    List String → List String → Except String (String × List String)
  | [], errs => .error ("All SMTP hosts failed. " ++ joinWith " | " errs)
  | h :: hs, errs =>
    if h = "" then send_email_with_failover attempt hs errs
    else
      match attempt h with
      | .ok _ => .ok (h, errs)
      | .error e => send_email_with_failover attempt hs (errs ++ [h ++ " failed: " ++ e])

/-- The delivery entry point: the statically ordered two-host relay list. -/
def deliver (attempt : String → Except String Unit) (h1 h2 : String) :
    Except String (String × List String) :=
  send_email_with_failover attempt [h1, h2] []

/-- The configured (non-empty) hosts of a relay list. -/
def configuredOf (hosts : List String) : List String :=
  hosts.filter (fun h => !(h = ""))

/-- Whether an attempt outcome is a success. -/
def isOkB : Except String Unit → Bool
  | .ok _ => true
  | .error _ => false

/-- The per-host error line recorded for a failing host. -/
def errLineOf (attempt : String → Except String Unit) (h : String) : String :=
  h ++ " failed: " ++ (match attempt h with | .ok _ => "" | .error e => e)

/-! ## JSON values and the recipient-map loader (`lambda_nodata.py`,
`load_json_from_s3_bucket_key`) -/

inductive Json where
  | str (s : String)
  | num (n : Int)
  | bool (b : Bool)
  | null
  | arr (elems : List Json)
  | obj (fields : List (String × Json))

mutual

/-- Python `repr` of a JSON value, as used by `str` on elements of nested
containers. -/
def pyRepr : Json → String
  | .str s => "\x27" ++ s ++ "\x27"
  | .num n => toString n
  | .bool b => if b then "True" else "False"
  | .null => "None"
  | .arr xs => "[" ++ pyReprElems xs ++ "]"
  | .obj kvs => "\x7b" ++ pyReprFields kvs ++ "\x7d"

/-- Comma-joined `repr`s of the elements of a JSON array. -/
def pyReprElems : List Json → String
  | [] => ""
  | [x] => pyRepr x
  | x :: y :: xs => pyRepr x ++ ", " ++ pyReprElems (y :: xs)

/-- Comma-joined `repr`s of the fields of a JSON object. -/
def pyReprFields : List (String × Json) → String
  | [] => ""
  | [(k, v)] => "\x27" ++ k ++ "\x27: " ++ pyRepr v
  | (k, v) :: f :: fs => "\x27" ++ k ++ "\x27: " ++ pyRepr v ++ ", " ++ pyReprFields (f :: fs)

end

/-- Python `str` applied to a JSON value (`str(x)` in the list
comprehension of the loader). -/
def pyStr : Json → String
  | .str s => s
  | j => pyRepr j

/-- Normalisation of one recipient-map value, from the loader's body:
a JSON array becomes the list of the non-empty stripped `str(...)`s of
its elements, a string becomes a one-element list of its stripped self
(or the empty list when it strips to nothing), and any other value type
becomes the empty list. -/
def normalizeValue : Json → List String
  | .arr xs => (xs.map (fun x => pyStrip (pyStr x))).filter (fun s => !(s = ""))
  | .str s => if pyStrip s = "" then [] else [pyStrip s]
  | _ => []

/-- Outcome of fetching and JSON-parsing the recipient-map object; the
S3 fetch and `json.loads` are the external collaborators, so the loader
is parameterised over their result. -/
inductive FetchOutcome where
  | clientError (e : String)
  | invalidJson (e : String)
  | parsed (j : Json)

/-- Embedding of `load_json_from_s3_bucket_key`: with no bucket/key
configured it returns the supplied default map; a fetch error or a JSON
parse error is re-raised; a parsed document that is not a top-level
object raises `ValueError`; otherwise every field value is normalised. -/
def load_json_from_s3_bucket_key (bucketName key : String) (outcome : FetchOutcome)
    (dflt : List (String × List String)) : Except String (List (String × List String)) :=
  if bucketName = "" || key = "" then .ok dflt
  else
    match outcome with
    | .clientError e => .error ("S3 ClientError loading email map: " ++ e)
    | .invalidJson e => .error ("JSON parsing error loading email map: " ++ e)
    | .parsed (.obj kvs) => .ok (kvs.map (fun kv => (kv.1, normalizeValue kv.2)))
    | .parsed _ => .error "Email map JSON must be an object/dict at top level."

/-! ## Notification policy (`current_lambda_new_feature.py`, with the
helpers of `lambda2.py`)

The post-scan state of one discovered tenant ("agency"): its folder name
(e.g. `agency=wholesales`), the ranked CSV attachments collected for it,
and the rendered summary blocks collected for it.  The policy layer
consumes exactly this data; folder names are distinct, as produced by a
delimiter-bounded S3 listing. -/

structure Agency where
  folder : String
  attachments : List (String × String)
  summaryBlocks : List String
deriving DecidableEq, Repr

/-- The environment-derived configuration consumed by the handler. -/
structure Config where
  defaultTo : List String
  mailFrom : String
  disclaimer : String
  startDate : String
  bucket : String
  rankedRoot : String
  summaryRoot : String
deriving DecidableEq, Repr

/-- The notification kinds of the run (spec names: `REPORT`,
`TENANT_NO_DATA`, `SYSTEM_OUTAGE`, `FALLBACK_NO_DATA_SUMMARY`). -/
inductive Kind where
  | report
  | noDataAgency
  | noDataAll
  | noDataDefaultList
deriving DecidableEq, Repr

/-- One attempted e-mail notification. -/
structure Email where
  kind : Kind
  agency : Option String
  subject : String
  body : String
  toAddr : String
  bcc : List String
  atts : List (String × String)
deriving DecidableEq, Repr

/-- The structured result returned by the handler. -/
structure RunResult where
  status : String
  sent_reports : Nat
  sent_agency_no_data : Nat
  sent_default_missing_list : Nat
  agencies_total : Nat
  no_ranked_count : Nat
  no_summary_count : Nat
deriving DecidableEq, Repr

/-- `EMAIL_FOOTER.format(sender=..., disclaimer=...)`. -/
def EMAIL_FOOTER (sender disclaimer : String) : String :=
  "\n\nFor questions about this report, please reply to this message or e-mail " ++
    sender ++ ".\nDISCLAIMER: " ++ disclaimer ++ "\n"

/-- `SEP = "=" * 30`. -/
def SEP : String := "=============================="

/-- `normalize_agency_for_subject`: strip the `agency=` namespace. -/
def normalize_agency_for_subject (agencyFolderName : String) : String :=
  if pyStartsWith agencyFolderName "agency=" then pyDrop agencyFolderName 7
  else agencyFolderName

/-- Python `active_map.get(agency_folder, []) or []`. -/
def dictGet (m : List (String × List String)) (k : String) : List String :=
  ((m.find? (fun kv => kv.1 == k)).map (fun kv => kv.2)).getD []

/-- `get_explicit_dl_for_agency`: the explicitly mapped DL for the
agency, blank entries dropped and the rest stripped; never falls back to
the default list. -/
def get_explicit_dl_for_agency (agencyFolder : String)
    (activeMap : List (String × List String)) : List String :=
  ((dictGet activeMap agencyFolder).filter
    (fun x => !(x = "") && !(pyStrip x = ""))).map pyStrip

/-- `get_report_recipients_for_agency`: explicit agency DL, or the
default fallback list (which may be empty). -/
def get_report_recipients_for_agency (agencyFolder : String)
    (activeMap : List (String × List String)) (defaultToList : List String) : List String :=
  let explicit := get_explicit_dl_for_agency agencyFolder activeMap
  if !explicit.isEmpty then explicit else defaultToList

/-- `pick_bcc_recipients` from `lambda_nodata.py` (production branch):
the mapped list, or the single default address when the mapped list is
empty and a default is configured. -/
def pick_bcc_recipients (agencyFolderName : String)
    (agencyEmailMap : List (String × List String)) (defaultEmailTo : String) : List String :=
  let recipients := dictGet agencyEmailMap agencyFolderName
  if recipients.isEmpty && !(defaultEmailTo = "") then [defaultEmailTo] else recipients

/-- The scan's `agencies_no_ranked` accumulator: folders of agencies for
which no ranked CSV attachment was collected, in scan order. -/
def agencies_no_ranked (ags : List Agency) : List String :=
  ags.foldl (fun acc a => if a.attachments.isEmpty then acc ++ [a.folder] else acc) []

/-- The scan's `agencies_no_summary` accumulator: folders of agencies
for which no summary block was collected, in scan order. -/
def agencies_no_summary (ags : List Agency) : List String :=
  ags.foldl (fun acc a => if a.summaryBlocks.isEmpty then acc ++ [a.folder] else acc) []

/-- `all_no_ranked = (len(agencies) > 0 and len(agencies_no_ranked) == len(agencies))`. -/
def all_no_ranked (ags : List Agency) : Bool :=
  (ags.length != 0) && ((agencies_no_ranked ags).length == ags.length)

/-- `all_no_summary = (len(agencies) > 0 and len(agencies_no_summary) == len(agencies))`. -/
def all_no_summary (ags : List Agency) : Bool :=
  (ags.length != 0) && ((agencies_no_summary ags).length == ags.length)

/-- `no_data_all_case` (also named `system_outage` in `lambda_helper.py`):
no ranked CSVs anywhere and no summary TXT anywhere. -/
def no_data_all_case (ags : List Agency) : Bool :=
  all_no_ranked ags && all_no_summary ags

/-- The run-wide completeness state (spec §3): `OUTAGE` exactly when the
`no_data_all_case` condition fires. -/
inductive SystemState where
  | NORMAL
  | OUTAGE
deriving DecidableEq, Repr

/-- Classifier: the system state of a run. -/
def systemState (ags : List Agency) : SystemState :=
  if no_data_all_case ags then .OUTAGE else .NORMAL

/-- `agency_summary_text[agency_folder]`: the joined, stripped summary
blocks, or the empty string when no block was collected. -/
def agency_summary_text (a : Agency) : String :=
  if a.summaryBlocks.isEmpty then "" else pyStrip (joinWith "\n" a.summaryBlocks)

/-- The REPORT e-mail for one agency (subject, body with optional
summary section plus footer, attachments, bcc recipients). -/
def mkReportEmail (cfg : Config) (a : Agency) (bccList : List String) : Email :=
  let agencyShort := normalize_agency_for_subject a.folder
  let summaryText := pyStrip (agency_summary_text a)
  let body :=
    (if !(summaryText = "") then
      "SUMMARY REPORTS (from substat=summary):\n" ++ summaryText ++ "\n"
    else "") ++ EMAIL_FOOTER cfg.mailFrom cfg.disclaimer
  { kind := .report
    agency := some a.folder
    subject := "DNS Service Bypass Weekly Report " ++ agencyShort
    body := body
    toAddr := cfg.mailFrom
    bcc := bccList
    atts := a.attachments }

/-- The per-agency NO DATA e-mail (one of two fixed lead sentences,
depending on whether a summary exists, plus footer). -/
def mkNoDataAgencyEmail (cfg : Config) (a : Agency) (explicitDl : List String) : Email :=
  let agencyShort := normalize_agency_for_subject a.folder
  let summaryText := pyStrip (agency_summary_text a)
  let body :=
    (if !(summaryText = "") then
      "There is no DNS bypass traffic report data for this week. " ++
        "A summary report is included below.\n\n" ++
        "SUMMARY REPORTS (from substat=summary):\n" ++ summaryText ++ "\n"
    else
      "There is no DNS bypass traffic report data for this week and no summary report.\n") ++
    EMAIL_FOOTER cfg.mailFrom cfg.disclaimer
  { kind := .noDataAgency
    agency := some a.folder
    subject := "DNS Service Bypass Weekly Report - NO DATA " ++ agencyShort
    body := body
    toAddr := cfg.mailFrom
    bcc := explicitDl
    atts := [] }

/-- The single NO_DATA_ALL (system outage) e-mail to the default list. -/
def mkOutageEmail (cfg : Config) : Email :=
  { kind := .noDataAll
    agency := none
    subject := "DNS Service Bypass Weekly Report - NO DATA (ALL AGENCIES) start_date=" ++
      cfg.startDate
    body := "NO DATA DETAILS (SYSTEM OUTAGE):\n" ++
      "No ranked-traffic CSV and no summary TXT were found for ANY agency for start_date=" ++
      cfg.startDate ++ ".\n\nPaths checked:\n- Ranked (attachments): s3://" ++ cfg.bucket ++
      "/" ++ cfg.rankedRoot ++ "\n- Summary (body):      s3://" ++ cfg.bucket ++ "/" ++
      cfg.summaryRoot ++ "\n" ++ EMAIL_FOOTER cfg.mailFrom cfg.disclaimer
    toAddr := cfg.mailFrom
    bcc := cfg.defaultTo
    atts := [] }

/-- The aggregate NO DATA e-mail to the default list, listing the
agencies missing ranked CSVs and, separately, those missing summary TXT. -/
def mkAggEmail (cfg : Config) (noRankedNames noSummaryNames : List String) : Email :=
  let rankedMissing := joinWith ", " (noRankedNames.map normalize_agency_for_subject)
  let summaryMissing :=
    if noSummaryNames.isEmpty then "None"
    else joinWith ", " (noSummaryNames.map normalize_agency_for_subject)
  { kind := .noDataDefaultList
    agency := none
    subject := "DNS Service Bypass Weekly Report - NO DATA (start_date=" ++ cfg.startDate ++ ")"
    body := "NO DATA DETAILS:\n" ++
      "Agencies missing ranked-traffic CSV attachments for start_date=" ++ cfg.startDate ++
      ":\n" ++ rankedMissing ++ "\n\nSUMMARY NO DATA DETAILS:\n" ++
      "Agencies missing summary TXT for start_date=" ++ cfg.startDate ++ ":\n" ++
      summaryMissing ++ "\n" ++ EMAIL_FOOTER cfg.mailFrom cfg.disclaimer
    toAddr := cfg.mailFrom
    bcc := cfg.defaultTo
    atts := [] }

/-- The recipients of one agency's REPORT e-mail, as resolved inside the
loop: the explicit DL when non-empty, else the default list. -/
def reportBccOf (cfg : Config) (edl : String → List String) (a : Agency) : List String :=
  if !(edl a.folder).isEmpty then edl a.folder else cfg.defaultTo

/-- Phase 1 of the normal branch: REPORT e-mails for the agencies that
have ranked CSV attachments, skipping agencies with no resolvable
recipients. -/
def reportEmailsOf (cfg : Config) (edl : String → List String) (ags : List Agency) :
    List Email :=
  (ags.filter (fun a => !a.attachments.isEmpty)).filterMap (fun a =>
    if (reportBccOf cfg edl a).isEmpty then none
    else some (mkReportEmail cfg a (reportBccOf cfg edl a)))

/-- Phase 2 of the normal branch: per-agency NO DATA e-mails for the
agencies without ranked CSVs, only when an explicit DL is configured. -/
def noDataAgencyEmailsOf (cfg : Config) (edl : String → List String) (ags : List Agency) :
    List Email :=
  (ags.filter (fun a => a.attachments.isEmpty)).filterMap (fun a =>
    if (edl a.folder).isEmpty then none
    else some (mkNoDataAgencyEmail cfg a (edl a.folder)))

/-- Phase 3 of the normal branch: the aggregate NO DATA e-mail to the
default list, when the default list is non-empty and at least one agency
misses ranked CSVs. -/
def aggEmailsOf (cfg : Config) (ags : List Agency) : List Email :=
  if !cfg.defaultTo.isEmpty && !(agencies_no_ranked ags).isEmpty then
    [mkAggEmail cfg (agencies_no_ranked ags) (agencies_no_summary ags)]
  else []

/-- The outage branch's e-mails: the single NO_DATA_ALL e-mail when the
default list is non-empty, otherwise nothing (the source only logs). -/
def outageEmailsOf (cfg : Config) : List Email :=
  if cfg.defaultTo.isEmpty then [] else [mkOutageEmail cfg]

/-- The e-mail phase of `current_lambda_new_feature.py`, parameterised
by the explicit-DL resolver `edl` (which the handler instantiates with
`get_explicit_dl_for_agency` on the active map).  Produces the run
result together with the ordered list of attempted e-mails: the outage
branch suppresses everything else; otherwise REPORT e-mails, then
per-agency NO DATA e-mails, then the aggregate NO DATA e-mail. -/
def runCore (cfg : Config) (edl : String → List String) (ags : List Agency) :
    RunResult × List Email :=
  if no_data_all_case ags then
    ({ status := "no_data_all"
       sent_reports := 0
       sent_agency_no_data := 0
       sent_default_missing_list := 0
       agencies_total := ags.length
       no_ranked_count := (agencies_no_ranked ags).length
       no_summary_count := (agencies_no_summary ags).length }, outageEmailsOf cfg)
  else
    ({ status := "ok"
       sent_reports := (reportEmailsOf cfg edl ags).length
       sent_agency_no_data := (noDataAgencyEmailsOf cfg edl ags).length
       sent_default_missing_list := (aggEmailsOf cfg ags).length
       agencies_total := ags.length
       no_ranked_count := (agencies_no_ranked ags).length
       no_summary_count := (agencies_no_summary ags).length },
     reportEmailsOf cfg edl ags ++ noDataAgencyEmailsOf cfg edl ags ++ aggEmailsOf cfg ags)

/-- The handler's e-mail phase on an active recipient map. -/
def runEmails (cfg : Config) (activeMap : List (String × List String))
    (ags : List Agency) : RunResult × List Email :=
  runCore cfg (fun f => get_explicit_dl_for_agency f activeMap) ags

/-- Number of attempted e-mails of a given kind. -/
def countKind (k : Kind) (es : List Email) : Nat :=
  (es.filter (fun e => e.kind == k)).length

/-! ## Partition walker and summary-fragment collector (`lambda2.py`,
lines 409-432)

The object store is the external collaborator: `children` models
`list_child_prefixes` (one delimiter-bounded level), `listKeys` models a
paginated `list_objects_v2` listing under a prefix, and `text` models
`get_object(...)["Body"].read().decode("utf-8", errors="replace")` —
i.e. the already-decoded byte content of a key. -/

structure Store where
  children : String → List String
  listKeys : String → List String
  text : String → String

/-- `list_keys_with_suffix`: keys under the prefix whose lower-cased
name ends with the lower-cased suffix. -/
def list_keys_with_suffix (st : Store) (pfx sfx : String) : List String :=
  (st.listKeys pfx).filter (fun k => pyEndsWith (pyLower k) (pyLower sfx))

/-- `read_text_file`: decoded content with CRLF and CR normalised to LF
and surrounding whitespace stripped. -/
def read_text_file (st : Store) (key : String) : String :=
  pyStrip (pyReplace (pyReplace (st.text key) "\r\n" "\n") "\r" "\n")

/-- The rendered summary block for one fragment. -/
def mkBlock (label content : String) : String :=
  "\nSUMMARY TXT: " ++ label ++ "\n" ++ SEP ++ "\n" ++ content ++ "\n" ++ SEP ++ "\n"

/-- The code's label for a fragment key: `txt_key.replace(agency_prefix_summary,
"").lstrip("/")` — every occurrence of the agency summary root replaced
by nothing, then all leading forward slashes stripped. -/
def labelOf (agencyPfxSummary txtKey : String) : String :=
  pyLstripSlash (pyReplace txtKey agencyPfxSummary "")

/-- The date-scoped leaf under an ip-field partition. -/
def targetOf (ipfPfx cadencePfx startDate : String) : String :=
  ipfPfx ++ cadencePfx ++ "start_date=" ++ startDate ++ "/"

/-- The summary-block collection loop of the handler, verbatim as nested
`for` loops accumulating into `summary_blocks`: channel level, then
ip-version, then ip-field, then the `.txt` keys of the date-scoped leaf;
a fragment whose normalised content is empty is dropped. -/
def collectSummaryBlocks (st : Store) (cadencePfx startDate agencyPfxSummary : String) :
    List String :=
  (st.children agencyPfxSummary).foldl (fun acc1 bypassPfx =>
    (st.children bypassPfx).foldl (fun acc2 ipvPfx =>
      (st.children ipvPfx).foldl (fun acc3 ipfPfx =>
        (list_keys_with_suffix st (targetOf ipfPfx cadencePfx startDate) ".txt").foldl
          (fun acc4 txtKey =>
            let txtContent := read_text_file st txtKey
            if !(txtContent = "") then
              acc4 ++ [mkBlock (labelOf agencyPfxSummary txtKey) txtContent]
            else acc4)
          acc3)
        acc2)
      acc1)
    []

/-- The `.txt` keys of one tenant in discovery order: the flattening of
the walker's (channel, ip-version, ip-field, listing) traversal. -/
def discoveredTxtKeys (st : Store) (cadencePfx startDate agencyPfxSummary : String) :
    List String :=
  (st.children agencyPfxSummary).flatMap (fun bypassPfx =>
    (st.children bypassPfx).flatMap (fun ipvPfx =>
      (st.children ipvPfx).flatMap (fun ipfPfx =>
        list_keys_with_suffix st (targetOf ipfPfx cadencePfx startDate) ".txt")))

/-- The fragments (label, content) of one tenant in discovery order,
dropping keys whose normalised content is empty. -/
def discoveredFragments (st : Store) (cadencePfx startDate agencyPfxSummary : String) :
    List (String × String) :=
  (discoveredTxtKeys st cadencePfx startDate agencyPfxSummary).filterMap (fun k =>
    let c := read_text_file st k
    if !(c = "") then some (labelOf agencyPfxSummary k, c) else none)

/-- The spec's wording for a fragment label (§4.2): "path of the object
relative to the tenant's fragment-root prefix (forward-slash leading
separator stripped)" — the root removed once from the front, then one
leading slash stripped. -/
def labelPerSpec (agencyPfxSummary txtKey : String) : String :=
  let rel := if pyStartsWith txtKey agencyPfxSummary then
    pyDrop txtKey agencyPfxSummary.data.length else txtKey
  if pyStartsWith rel "/" then pyDrop rel 1 else rel

/-- A concrete store whose single text key contains the agency summary
root twice, exercising the label computation. -/
def cexC8Store : Store :=
  { children := fun p =>
      if p = "s/a/" then ["c1"] else if p = "c1" then ["c2"]
      else if p = "c2" then ["c3"] else []
    listKeys := fun p => if p = "c3c/start_date=d/" then ["s/a/s/a/x.txt"] else []
    text := fun _ => "hello" }

/-! ## Theorems -/

theorem failover_characterisation (attempt : String → Except String Unit) :
    ∀ (hosts : List String) (errs : List String),
      send_email_with_failover attempt hosts errs =
        match (configuredOf hosts).find? (fun h => isOkB (attempt h)) with
        | some h =>
            .ok (h, errs ++ ((configuredOf hosts).takeWhile
                  (fun h => !isOkB (attempt h))).map (errLineOf attempt))
        | none =>
            .error ("All SMTP hosts failed. " ++
              joinWith " | " (errs ++ (configuredOf hosts).map (errLineOf attempt))) := by
  intro hosts
  induction hosts with
  | nil => intro errs; simp [send_email_with_failover, configuredOf]
  | cons h hs ih =>
    intro errs
    by_cases hh : h = ""
    · subst hh
      simpa [send_email_with_failover, configuredOf] using ih errs
    · have hconf : configuredOf (h :: hs) = h :: configuredOf hs := by
        simp [configuredOf, hh]
      cases hA : attempt h with
      | ok u =>
        cases u
        have hok : isOkB (attempt h) = true := by simp [isOkB, hA]
        have hstep : send_email_with_failover attempt (h :: hs) errs = .ok (h, errs) := by
          simp [send_email_with_failover, hh, hA]
        rw [hstep, hconf]
        simp [List.find?_cons, List.takeWhile_cons, hok]
      | error e =>
        have hok : isOkB (attempt h) = false := by simp [isOkB, hA]
        have hline : errLineOf attempt h = h ++ " failed: " ++ e := by
          simp [errLineOf, hA]
        have hstep : send_email_with_failover attempt (h :: hs) errs =
            send_email_with_failover attempt hs (errs ++ [h ++ " failed: " ++ e]) := by
          simp [send_email_with_failover, hh, hA]
        rw [hstep, ih, hconf]
        cases hF : (configuredOf hs).find? (fun h => isOkB (attempt h)) with
        | some h2 =>
          simp [List.find?_cons, List.takeWhile_cons, hok, hF, hline]
        | none =>
          simp [List.find?_cons, hok, hF, hline]

/-- Claim C6: The delivery operation iterates the two relay hosts in their
configured order, skipping empty entries; it returns success at the first
host whose send raises no exception (its accumulated error list holds
exactly one line per earlier configured, failing host — so no later host
is attempted and no host is retried); it raises a single error
aggregating every per-host error message if and only if every configured
host raises; and with both hosts configured, the first raising and the
second succeeding, delivery succeeds via the second host. -/
theorem c6_delivery_failover (attempt : String → Except String Unit) (h1 h2 : String) :
    (∀ h errs, deliver attempt h1 h2 = .ok (h, errs) →
        (configuredOf [h1, h2]).find? (fun x => isOkB (attempt x)) = some h ∧
        errs = ((configuredOf [h1, h2]).takeWhile
          (fun x => !isOkB (attempt x))).map (errLineOf attempt)) ∧
    ((∃ e, deliver attempt h1 h2 = .error e) ↔
        ∀ h ∈ configuredOf [h1, h2], isOkB (attempt h) = false) ∧
    (∀ e, deliver attempt h1 h2 = .error e →
        e = "All SMTP hosts failed. " ++
          joinWith " | " ((configuredOf [h1, h2]).map (errLineOf attempt))) ∧
    (h1 ≠ "" → h2 ≠ "" → ∀ e1, attempt h1 = .error e1 → attempt h2 = .ok () →
        deliver attempt h1 h2 = .ok (h2, [h1 ++ " failed: " ++ e1])) := by
  have hch := failover_characterisation attempt [h1, h2] []
  unfold deliver
  cases hF : (configuredOf [h1, h2]).find? (fun x => isOkB (attempt x)) with
  | some h0 =>
    rw [hF] at hch
    simp only [List.nil_append] at hch
    refine ⟨?_, ?_, ?_, ?_⟩
    · intro h errs hEq
      rw [hch] at hEq
      injection hEq with hp
      injection hp with hph hpe
      subst hph
      exact ⟨rfl, hpe.symm⟩
    · constructor
      · intro ⟨e, hEq⟩
        rw [hch] at hEq
        exact absurd hEq (by simp)
      · intro hAll
        have hMem := List.mem_of_find?_eq_some hF
        have hOk := List.find?_some hF
        have := hAll h0 hMem
        simp [this] at hOk
    · intro e hEq
      rw [hch] at hEq
      exact absurd hEq (by simp)
    · intro hn1 hn2 e1 hA1 hA2
      have hconf : configuredOf [h1, h2] = [h1, h2] := by
        simp [configuredOf, hn1, hn2]
      rw [hconf] at hch hF
      have hok1 : isOkB (attempt h1) = false := by simp [isOkB, hA1]
      have hok2 : isOkB (attempt h2) = true := by simp [isOkB, hA2]
      rw [hch]
      simp only [List.find?_cons, hok1, hok2] at hF
      simp only [List.takeWhile_cons, hok1, hok2, Bool.not_false, Bool.not_true,
        if_true, if_false]
      simp at hF
      subst hF
      simp [List.takeWhile_cons, hok1, hok2, errLineOf, hA1]
  | none =>
    rw [hF] at hch
    simp only [List.nil_append] at hch
    refine ⟨?_, ?_, ?_, ?_⟩
    · intro h errs hEq
      rw [hch] at hEq
      exact absurd hEq (by simp)
    · constructor
      · intro _
        intro h hMem
        have := List.find?_eq_none.mp hF h hMem
        simpa using this
      · intro _
        exact ⟨_, hch⟩
    · intro e hEq
      rw [hch] at hEq
      exact (Except.error.inj hEq).symm
    · intro hn1 hn2 e1 hA1 hA2
      exfalso
      have hMem : h2 ∈ configuredOf [h1, h2] := by
        simp [configuredOf, hn1, hn2]
      have := List.find?_eq_none.mp hF h2 hMem
      simp [isOkB, hA2] at this

/-- Witness for claim C6: Scenario D at a concrete input: both hosts configured,
the first raises, the second succeeds; delivery succeeds via the second
host with the first host's error recorded. -/
theorem c6_delivery_failover_witness :
    deliver (fun h => if h = "relay2" then .ok () else .error "boom") "relay1" "relay2" =
      .ok ("relay2", ["relay1 failed: boom"]) :=
  (c6_delivery_failover (fun h => if h = "relay2" then .ok () else .error "boom")
      "relay1" "relay2").2.2.2 (by decide) (by decide) "boom" rfl rfl

theorem foldl_if_append {α β : Type} (p : α → Bool) (f : α → β) :
    ∀ (l : List α) (acc : List β),
      l.foldl (fun acc a => if p a then acc ++ [f a] else acc) acc =
        acc ++ (l.filter p).map f := by
  intro l
  induction l with
  | nil => intro acc; simp
  | cons a l ih =>
    intro acc
    by_cases h : p a
    · simp [List.foldl_cons, h, ih, List.filter_cons]
    · simp [List.foldl_cons, h, ih, List.filter_cons]

theorem agencies_no_ranked_eq (ags : List Agency) :
    agencies_no_ranked ags =
      (ags.filter (fun a => a.attachments.isEmpty)).map (fun a => a.folder) := by
  unfold agencies_no_ranked
  rw [foldl_if_append]
  simp

theorem agencies_no_summary_eq (ags : List Agency) :
    agencies_no_summary ags =
      (ags.filter (fun a => a.summaryBlocks.isEmpty)).map (fun a => a.folder) := by
  unfold agencies_no_summary
  rw [foldl_if_append]
  simp

theorem filter_length_full {α : Type} (p : α → Bool) (l : List α) :
    ((l.filter p).length = l.length) ↔ ∀ a ∈ l, p a := by
  constructor
  · intro h
    exact List.filter_eq_self.mp ((List.filter_sublist l).eq_of_length h)
  · intro h
    rw [List.filter_eq_self.mpr h]

theorem no_data_all_case_iff (ags : List Agency) :
    no_data_all_case ags = true ↔
      (ags ≠ [] ∧ ∀ a ∈ ags, a.attachments = []) ∧
      (ags ≠ [] ∧ ∀ a ∈ ags, a.summaryBlocks = []) := by
  unfold no_data_all_case all_no_ranked all_no_summary
  rw [agencies_no_ranked_eq, agencies_no_summary_eq]
  simp only [Bool.and_eq_true, bne_iff_ne, ne_eq, beq_iff_eq, List.length_map]
  rw [filter_length_full, filter_length_full]
  constructor
  · intro ⟨⟨h1, h2⟩, ⟨h3, h4⟩⟩
    refine ⟨⟨fun hE => h1 (by simp [hE]), fun a ha => List.isEmpty_iff.mp (h2 a ha)⟩,
      ⟨fun hE => h3 (by simp [hE]), fun a ha => List.isEmpty_iff.mp (h4 a ha)⟩⟩
  · intro ⟨⟨h1, h2⟩, ⟨h3, h4⟩⟩
    refine ⟨⟨fun hE => h1 (List.length_eq_zero.mp hE), fun a ha => List.isEmpty_iff.mpr (h2 a ha)⟩,
      ⟨fun hE => h3 (List.length_eq_zero.mp hE), fun a ha => List.isEmpty_iff.mpr (h4 a ha)⟩⟩

theorem filterMap_guard {α β : Type} (c : α → Bool) (g : α → β) (l : List α) :
    (l.filterMap (fun a => if c a then none else some (g a))) =
      (l.filter (fun a => !c a)).map g := by
  induction l with
  | nil => simp
  | cons a l ih =>
    by_cases h : c a
    · simp [List.filterMap_cons, List.filter_cons, h, ih]
    · simp [List.filterMap_cons, List.filter_cons, h, ih]

theorem countKind_append (k : Kind) (xs ys : List Email) :
    countKind k (xs ++ ys) = countKind k xs + countKind k ys := by
  simp [countKind, List.filter_append]

theorem countKind_eq_zero (k : Kind) (es : List Email) (h : ∀ e ∈ es, e.kind ≠ k) :
    countKind k es = 0 := by
  have : es.filter (fun e => e.kind == k) = [] := by
    rw [List.filter_eq_nil_iff]
    intro e he
    simpa using h e he
  simp [countKind, this]

theorem mem_reportEmailsOf (cfg : Config) (edl : String → List String) (ags : List Agency) :
    ∀ e ∈ reportEmailsOf cfg edl ags,
      ∃ a ∈ ags, (!a.attachments.isEmpty) = true ∧
        (reportBccOf cfg edl a).isEmpty = false ∧ e = mkReportEmail cfg a (reportBccOf cfg edl a) := by
  intro e he
  unfold reportEmailsOf at he
  rw [List.mem_filterMap] at he
  obtain ⟨a, ha, hfa⟩ := he
  rw [List.mem_filter] at ha
  by_cases h : (reportBccOf cfg edl a).isEmpty
  · simp [h] at hfa
  · refine ⟨a, ha.1, ha.2, by simpa using h, ?_⟩
    simp [h] at hfa
    exact hfa.symm

theorem mem_noDataAgencyEmailsOf (cfg : Config) (edl : String → List String)
    (ags : List Agency) :
    ∀ e ∈ noDataAgencyEmailsOf cfg edl ags,
      ∃ a ∈ ags, a.attachments.isEmpty = true ∧
        (edl a.folder).isEmpty = false ∧ e = mkNoDataAgencyEmail cfg a (edl a.folder) := by
  intro e he
  unfold noDataAgencyEmailsOf at he
  rw [List.mem_filterMap] at he
  obtain ⟨a, ha, hfa⟩ := he
  rw [List.mem_filter] at ha
  by_cases h : (edl a.folder).isEmpty
  · simp [h] at hfa
  · refine ⟨a, ha.1, ha.2, by simpa using h, ?_⟩
    simp [h] at hfa
    exact hfa.symm

theorem mem_aggEmailsOf (cfg : Config) (ags : List Agency) :
    ∀ e ∈ aggEmailsOf cfg ags,
      e = mkAggEmail cfg (agencies_no_ranked ags) (agencies_no_summary ags) := by
  intro e he
  unfold aggEmailsOf at he
  by_cases h : !cfg.defaultTo.isEmpty && !(agencies_no_ranked ags).isEmpty
  · simp [h] at he
    exact he
  · simp [h] at he

theorem kind_reportEmailsOf (cfg : Config) (edl : String → List String) (ags : List Agency) :
    ∀ e ∈ reportEmailsOf cfg edl ags, e.kind = .report := by
  intro e he
  obtain ⟨a, -, -, -, hEq⟩ := mem_reportEmailsOf cfg edl ags e he
  rw [hEq]
  rfl

theorem kind_noDataAgencyEmailsOf (cfg : Config) (edl : String → List String)
    (ags : List Agency) :
    ∀ e ∈ noDataAgencyEmailsOf cfg edl ags, e.kind = .noDataAgency := by
  intro e he
  obtain ⟨a, -, -, -, hEq⟩ := mem_noDataAgencyEmailsOf cfg edl ags e he
  rw [hEq]
  rfl

theorem kind_aggEmailsOf (cfg : Config) (ags : List Agency) :
    ∀ e ∈ aggEmailsOf cfg ags, e.kind = .noDataDefaultList := by
  intro e he
  rw [mem_aggEmailsOf cfg ags e he]
  rfl

theorem systemState_outage_iff (ags : List Agency) :
    systemState ags = .OUTAGE ↔ no_data_all_case ags = true := by
  unfold systemState
  cases hC : no_data_all_case ags <;> simp [hC]

theorem systemState_normal_iff (ags : List Agency) :
    systemState ags = .NORMAL ↔ no_data_all_case ags = false := by
  unfold systemState
  cases hC : no_data_all_case ags <;> simp [hC]

theorem runCore_outage (cfg : Config) (edl : String → List String) (ags : List Agency)
    (h : no_data_all_case ags = true) :
    (runCore cfg edl ags).2 = outageEmailsOf cfg ∧
    (runCore cfg edl ags).1.status = "no_data_all" := by
  unfold runCore
  simp [h]

theorem runCore_normal (cfg : Config) (edl : String → List String) (ags : List Agency)
    (h : no_data_all_case ags = false) :
    (runCore cfg edl ags).2 =
      reportEmailsOf cfg edl ags ++ noDataAgencyEmailsOf cfg edl ags ++ aggEmailsOf cfg ags ∧
    (runCore cfg edl ags).1.sent_reports = (reportEmailsOf cfg edl ags).length ∧
    (runCore cfg edl ags).1.sent_agency_no_data = (noDataAgencyEmailsOf cfg edl ags).length ∧
    (runCore cfg edl ags).1.sent_default_missing_list = (aggEmailsOf cfg ags).length := by
  unfold runCore
  simp [h]

/-- Claim C1: For every run over a non-empty set of discovered tenants,
the classifier assigns `SystemState = OUTAGE` if and only if every
tenant has an empty attachment list and every tenant has an empty
fragment list; if at least one tenant has an attachment or a non-empty
fragment list, the system state is `NORMAL`. -/
theorem c1_outage_iff_all_artifacts_absent (ags : List Agency) (h : ags ≠ []) :
    systemState ags = .OUTAGE ↔ ∀ a ∈ ags, a.attachments = [] ∧ a.summaryBlocks = [] := by
  have hstate : systemState ags = .OUTAGE ↔ no_data_all_case ags = true := by
    unfold systemState
    cases hC : no_data_all_case ags <;> simp [hC]
  rw [hstate, no_data_all_case_iff]
  constructor
  · intro ⟨⟨_, h2⟩, ⟨_, h4⟩⟩ a ha
    exact ⟨h2 a ha, h4 a ha⟩
  · intro hAll
    exact ⟨⟨h, fun a ha => (hAll a ha).1⟩, ⟨h, fun a ha => (hAll a ha).2⟩⟩

/-- Witness for claim C1: A concrete non-empty tenant set with no artifacts at
all is classified `OUTAGE`. -/
theorem c1_outage_iff_all_artifacts_absent_witness :
    ([⟨"agency=a", [], []⟩] : List Agency) ≠ [] ∧
      systemState [⟨"agency=a", [], []⟩] = .OUTAGE :=
  ⟨by decide, (c1_outage_iff_all_artifacts_absent [⟨"agency=a", [], []⟩]
    (by decide)).mpr (by decide)⟩

/-- Claim C2: In every run classified `OUTAGE`, exactly one `SYSTEM_OUTAGE`
notification is attempted, to the fallback recipient list, when that
list is non-empty, and zero notifications are attempted when it is
empty; in either case no REPORT, no per-tenant TENANT_NO_DATA and no
aggregate no-data notification is attempted in the run. -/
theorem c2_outage_absorbing (cfg : Config) (m : List (String × List String))
    (ags : List Agency) (h : systemState ags = .OUTAGE) :
    countKind .noDataAll (runEmails cfg m ags).2 = (if cfg.defaultTo.isEmpty then 0 else 1) ∧
    countKind .report (runEmails cfg m ags).2 = 0 ∧
    countKind .noDataAgency (runEmails cfg m ags).2 = 0 ∧
    countKind .noDataDefaultList (runEmails cfg m ags).2 = 0 ∧
    ∀ e ∈ (runEmails cfg m ags).2, e.kind = .noDataAll ∧ e.bcc = cfg.defaultTo := by
  have hc : no_data_all_case ags = true := (systemState_outage_iff ags).mp h
  unfold runEmails
  rw [(runCore_outage cfg (fun f => get_explicit_dl_for_agency f m) ags hc).1]
  unfold outageEmailsOf
  by_cases hD : cfg.defaultTo.isEmpty
  · simp [hD, countKind]
  · rw [if_neg hD, if_neg hD]
    refine ⟨by simp [countKind, mkOutageEmail], by simp [countKind, mkOutageEmail],
      by simp [countKind, mkOutageEmail], by simp [countKind, mkOutageEmail], ?_⟩
    intro e he
    simp only [List.mem_singleton] at he
    rw [he]
    exact ⟨rfl, rfl⟩

/-- Witness for claim C2: A concrete outage run with a configured fallback
list attempts exactly one notification. -/
theorem c2_outage_absorbing_witness :
    systemState [⟨"agency=a", [], []⟩] = .OUTAGE ∧
      countKind .noDataAll
        (runEmails ⟨["d@x.com"], "from@x.com", "disc", "2026-01-01", "bkt", "r/", "s/"⟩ []
          [⟨"agency=a", [], []⟩]).2 = 1 :=
  ⟨by decide,
    (c2_outage_absorbing ⟨["d@x.com"], "from@x.com", "disc", "2026-01-01", "bkt", "r/", "s/"⟩
      [] [⟨"agency=a", [], []⟩] (by decide)).1.trans (by decide)⟩

theorem filter_kind_of_forall_ne (k : Kind) (es : List Email) (h : ∀ e ∈ es, e.kind ≠ k) :
    es.filter (fun e => e.kind == k) = [] := by
  rw [List.filter_eq_nil_iff]
  intro e he
  simpa using h e he

theorem filter_kind_of_forall_eq (k : Kind) (es : List Email) (h : ∀ e ∈ es, e.kind = k) :
    es.filter (fun e => e.kind == k) = es := by
  rw [List.filter_eq_self]
  intro e he
  simpa using h e he

theorem noRanked_isEmpty_iff (ags : List Agency) :
    (agencies_no_ranked ags).isEmpty = true ↔ ags.all (fun a => !a.attachments.isEmpty) := by
  rw [agencies_no_ranked_eq]
  simp only [List.isEmpty_iff, List.map_eq_nil_iff, List.filter_eq_nil_iff, List.all_eq_true]
  constructor
  · intro h a ha
    simpa using h a ha
  · intro h a ha
    simpa using h a ha

/-- Claim C3: In every `NORMAL` run, exactly one aggregate
`FALLBACK_NO_DATA_SUMMARY` notification is attempted if and only if at
least one tenant lacks attachments and the fallback list is non-empty;
that notification goes to the fallback list and its content is built
from exactly the tenants lacking attachments and, separately, exactly
the tenants lacking fragments — independently of the per-tenant
notifications (the right-hand sides never mention the recipient map). -/
theorem c3_aggregate_no_data_summary (cfg : Config) (m : List (String × List String))
    (ags : List Agency) (h : systemState ags = .NORMAL) :
    countKind .noDataDefaultList (runEmails cfg m ags).2 =
      (if ags.any (fun a => a.attachments.isEmpty) && !cfg.defaultTo.isEmpty then 1 else 0) ∧
    ∀ e ∈ (runEmails cfg m ags).2, e.kind = .noDataDefaultList →
      e = mkAggEmail cfg
            ((ags.filter (fun a => a.attachments.isEmpty)).map (fun a => a.folder))
            ((ags.filter (fun a => a.summaryBlocks.isEmpty)).map (fun a => a.folder)) ∧
        e.bcc = cfg.defaultTo := by
  have hc : no_data_all_case ags = false := (systemState_normal_iff ags).mp h
  set edl := fun f => get_explicit_dl_for_agency f m with hedl
  unfold runEmails
  rw [(runCore_normal cfg edl ags hc).1]
  constructor
  · rw [countKind_append, countKind_append]
    rw [countKind_eq_zero _ _ (fun e he => by
      rw [kind_reportEmailsOf cfg edl ags e he]; intro hk; exact absurd hk (by decide))]
    rw [countKind_eq_zero _ _ (fun e he => by
      rw [kind_noDataAgencyEmailsOf cfg edl ags e he]; intro hk; exact absurd hk (by decide))]
    simp only [Nat.zero_add]
    unfold aggEmailsOf
    by_cases hG : !cfg.defaultTo.isEmpty && !(agencies_no_ranked ags).isEmpty
    · rw [if_pos hG]
      have hany : (ags.any (fun a => a.attachments.isEmpty) && !cfg.defaultTo.isEmpty) = true := by
        simp only [Bool.and_eq_true] at hG ⊢
        refine ⟨?_, hG.1⟩
        have := hG.2
        rw [Bool.not_eq_true', Bool.eq_false_iff] at this
        have hne : ¬ (agencies_no_ranked ags).isEmpty = true := this
        rw [noRanked_isEmpty_iff] at hne
        simp only [List.all_eq_true, not_forall] at hne
        obtain ⟨a, ha, hp⟩ := hne
        rw [List.any_eq_true]
        exact ⟨a, ha, by simpa using hp⟩
      rw [if_pos hany]
      simp [countKind, mkAggEmail]
    · rw [if_neg hG]
      have hany : ¬ (ags.any (fun a => a.attachments.isEmpty) && !cfg.defaultTo.isEmpty) = true := by
        intro hAB
        apply hG
        simp only [Bool.and_eq_true] at hAB ⊢
        refine ⟨hAB.2, ?_⟩
        rw [Bool.not_eq_true', Bool.eq_false_iff]
        intro hEmp
        rw [noRanked_isEmpty_iff] at hEmp
        rw [List.any_eq_true] at hAB
        obtain ⟨a, ha, hp⟩ := hAB.1
        have := (List.all_eq_true.mp hEmp) a ha
        simp [hp] at this
      rw [if_neg hany]
      simp [countKind]
  · intro e he hk
    rw [List.mem_append, List.mem_append] at he
    rcases he with (he | he) | he
    · exact absurd (kind_reportEmailsOf cfg edl ags e he) (by rw [hk]; decide)
    · exact absurd (kind_noDataAgencyEmailsOf cfg edl ags e he) (by rw [hk]; decide)
    · have hEq := mem_aggEmailsOf cfg ags e he
      rw [agencies_no_ranked_eq, agencies_no_summary_eq] at hEq
      exact ⟨hEq, by rw [hEq]; rfl⟩

/-- Witness for claim C3: A concrete `NORMAL` run with one tenant lacking
attachments and a non-empty fallback list attempts exactly one aggregate
notification. -/
theorem c3_aggregate_no_data_summary_witness :
    systemState [⟨"agency=a", [("f.csv", "x")], []⟩, ⟨"agency=b", [], []⟩] = .NORMAL ∧
      countKind .noDataDefaultList
        (runEmails ⟨["d@x.com"], "from@x.com", "disc", "2026-01-01", "bkt", "r/", "s/"⟩ []
          [⟨"agency=a", [("f.csv", "x")], []⟩, ⟨"agency=b", [], []⟩]).2 = 1 :=
  ⟨by decide,
    (c3_aggregate_no_data_summary
      ⟨["d@x.com"], "from@x.com", "disc", "2026-01-01", "bkt", "r/", "s/"⟩ []
      [⟨"agency=a", [("f.csv", "x")], []⟩, ⟨"agency=b", [], []⟩] (by decide)).1.trans
      (by decide)⟩

theorem noDataAgencyEmailsOf_eq (cfg : Config) (edl : String → List String)
    (ags : List Agency) :
    noDataAgencyEmailsOf cfg edl ags =
      (ags.filter (fun a => a.attachments.isEmpty && !(edl a.folder).isEmpty)).map
        (fun a => mkNoDataAgencyEmail cfg a (edl a.folder)) := by
  unfold noDataAgencyEmailsOf
  rw [filterMap_guard (fun a => (edl a.folder).isEmpty)
    (fun a => mkNoDataAgencyEmail cfg a (edl a.folder))]
  rw [List.filter_filter]
  exact congrArg _ (List.filter_congr (fun a _ => by rw [Bool.and_comm]))

theorem reportEmailsOf_eq (cfg : Config) (edl : String → List String) (ags : List Agency) :
    reportEmailsOf cfg edl ags =
      (ags.filter (fun a => !a.attachments.isEmpty && !(reportBccOf cfg edl a).isEmpty)).map
        (fun a => mkReportEmail cfg a (reportBccOf cfg edl a)) := by
  unfold reportEmailsOf
  rw [filterMap_guard (fun a => (reportBccOf cfg edl a).isEmpty)
    (fun a => mkReportEmail cfg a (reportBccOf cfg edl a))]
  rw [List.filter_filter]
  exact congrArg _ (List.filter_congr (fun a _ => by rw [Bool.and_comm]))

/-- Claim C4: In every `NORMAL` run, a per-tenant `TENANT_NO_DATA`
notification is attempted exactly for those tenants that have no
attachments and whose explicit recipient mapping in the active map is
non-empty; each such notification's recipients are that explicit mapping
(never the fallback list), and a tenant with attachments (`HAS_REPORT`)
never appears in one. -/
theorem c4_tenant_no_data_gate (cfg : Config) (m : List (String × List String))
    (ags : List Agency) (h : systemState ags = .NORMAL) :
    (((runEmails cfg m ags).2.filter (fun e => e.kind == .noDataAgency)).map
        (fun e => e.agency) =
      (ags.filter (fun a => a.attachments.isEmpty &&
        !(get_explicit_dl_for_agency a.folder m).isEmpty)).map (fun a => some a.folder)) ∧
    ∀ e ∈ (runEmails cfg m ags).2, e.kind = .noDataAgency →
      ∃ a ∈ ags, e.agency = some a.folder ∧ a.attachments = [] ∧
        e.bcc = get_explicit_dl_for_agency a.folder m ∧ e.bcc ≠ [] := by
  have hc : no_data_all_case ags = false := (systemState_normal_iff ags).mp h
  set edl := fun f => get_explicit_dl_for_agency f m with hedl
  unfold runEmails
  rw [(runCore_normal cfg edl ags hc).1]
  constructor
  · rw [List.filter_append, List.filter_append]
    rw [filter_kind_of_forall_ne _ (reportEmailsOf cfg edl ags) (fun e he => by
      rw [kind_reportEmailsOf cfg edl ags e he]; decide)]
    rw [filter_kind_of_forall_ne _ (aggEmailsOf cfg ags) (fun e he => by
      rw [kind_aggEmailsOf cfg ags e he]; decide)]
    rw [filter_kind_of_forall_eq _ (noDataAgencyEmailsOf cfg edl ags)
      (kind_noDataAgencyEmailsOf cfg edl ags)]
    rw [List.nil_append, List.append_nil]
    rw [noDataAgencyEmailsOf_eq, List.map_map]
    rfl
  · intro e he hk
    rw [List.mem_append, List.mem_append] at he
    rcases he with (he | he) | he
    · exact absurd (kind_reportEmailsOf cfg edl ags e he) (by rw [hk]; decide)
    · obtain ⟨a, haMem, haEmpty, haDl, hEq⟩ := mem_noDataAgencyEmailsOf cfg edl ags e he
      refine ⟨a, haMem, by rw [hEq]; rfl, List.isEmpty_iff.mp haEmpty, by rw [hEq]; rfl, ?_⟩
      rw [hEq]
      show edl a.folder ≠ []
      rw [← List.isEmpty_eq_false, haDl]
    · exact absurd (kind_aggEmailsOf cfg ags e he) (by rw [hk]; decide)

/-- Witness for claim C4: A concrete `NORMAL` run: the tenant with no
attachments and an explicit mapping gets exactly the one per-tenant
notification, addressed to its explicit mapping. -/
theorem c4_tenant_no_data_gate_witness :
    systemState [⟨"agency=a", [("f.csv", "x")], []⟩, ⟨"agency=b", [], []⟩] = .NORMAL ∧
      ((runEmails ⟨["d@x.com"], "from@x.com", "disc", "2026-01-01", "bkt", "r/", "s/"⟩
          [("agency=b", ["b@x.com"])]
          [⟨"agency=a", [("f.csv", "x")], []⟩, ⟨"agency=b", [], []⟩]).2.filter
        (fun e => e.kind == .noDataAgency)).map (fun e => e.agency) = [some "agency=b"] :=
  ⟨by decide,
    (c4_tenant_no_data_gate
      ⟨["d@x.com"], "from@x.com", "disc", "2026-01-01", "bkt", "r/", "s/"⟩
      [("agency=b", ["b@x.com"])]
      [⟨"agency=a", [("f.csv", "x")], []⟩, ⟨"agency=b", [], []⟩] (by decide)).1.trans
      (by decide)⟩

/-- Claim C5: In every `NORMAL` run, a REPORT notification is attempted
exactly for the tenants with at least one attachment whose resolved
recipient list is non-empty; the resolved list is the tenant's explicit
mapping when that is non-empty, otherwise the fallback list; when both
are empty the notification is skipped — it contributes nothing to the
e-mail list and nothing to the sent-reports counter — with no other
recipients substituted. -/
theorem c5_report_recipient_resolution (cfg : Config) (m : List (String × List String))
    (ags : List Agency) (h : systemState ags = .NORMAL) :
    (((runEmails cfg m ags).2.filter (fun e => e.kind == .report)).map (fun e => e.agency) =
      (ags.filter (fun a => !a.attachments.isEmpty &&
        !(get_report_recipients_for_agency a.folder m cfg.defaultTo).isEmpty)).map
          (fun a => some a.folder)) ∧
    (∀ e ∈ (runEmails cfg m ags).2, e.kind = .report →
      ∃ a ∈ ags, e.agency = some a.folder ∧ a.attachments ≠ [] ∧
        e.bcc = get_report_recipients_for_agency a.folder m cfg.defaultTo) ∧
    (∀ f : String, (get_explicit_dl_for_agency f m ≠ [] →
        get_report_recipients_for_agency f m cfg.defaultTo = get_explicit_dl_for_agency f m) ∧
      (get_explicit_dl_for_agency f m = [] →
        get_report_recipients_for_agency f m cfg.defaultTo = cfg.defaultTo)) ∧
    ((runEmails cfg m ags).1.sent_reports =
      (ags.filter (fun a => !a.attachments.isEmpty &&
        !(get_report_recipients_for_agency a.folder m cfg.defaultTo).isEmpty)).length) := by
  have hc : no_data_all_case ags = false := (systemState_normal_iff ags).mp h
  set edl := fun f => get_explicit_dl_for_agency f m with hedl
  have hbcc : ∀ a : Agency, reportBccOf cfg edl a =
      get_report_recipients_for_agency a.folder m cfg.defaultTo := fun a => rfl
  refine ⟨?_, ?_, ?_, ?_⟩
  · unfold runEmails
    rw [(runCore_normal cfg edl ags hc).1]
    rw [List.filter_append, List.filter_append]
    rw [filter_kind_of_forall_ne _ (noDataAgencyEmailsOf cfg edl ags) (fun e he => by
      rw [kind_noDataAgencyEmailsOf cfg edl ags e he]; decide)]
    rw [filter_kind_of_forall_ne _ (aggEmailsOf cfg ags) (fun e he => by
      rw [kind_aggEmailsOf cfg ags e he]; decide)]
    rw [filter_kind_of_forall_eq _ (reportEmailsOf cfg edl ags)
      (kind_reportEmailsOf cfg edl ags)]
    rw [List.append_nil, List.append_nil]
    rw [reportEmailsOf_eq, List.map_map]
    exact congrArg _ (List.filter_congr (fun a _ => by rw [hbcc a]))
  · intro e he hk
    unfold runEmails at he
    rw [(runCore_normal cfg edl ags hc).1] at he
    rw [List.mem_append, List.mem_append] at he
    rcases he with (he | he) | he
    · obtain ⟨a, haMem, haAtt, _, hEq⟩ := mem_reportEmailsOf cfg edl ags e he
      refine ⟨a, haMem, by rw [hEq]; rfl, ?_, by rw [hEq, ← hbcc a]; rfl⟩
      rw [← List.isEmpty_eq_false]
      simpa using haAtt
    · exact absurd (kind_noDataAgencyEmailsOf cfg edl ags e he) (by rw [hk]; decide)
    · exact absurd (kind_aggEmailsOf cfg ags e he) (by rw [hk]; decide)
  · intro f
    constructor
    · intro hne
      unfold get_report_recipients_for_agency
      rw [if_pos (by simpa [List.isEmpty_eq_false] using hne)]
    · intro hEmp
      unfold get_report_recipients_for_agency
      rw [if_neg (by simp [hEmp])]
  · unfold runEmails
    rw [(runCore_normal cfg edl ags hc).2.1]
    rw [reportEmailsOf_eq, List.length_map]
    exact congrArg _ (List.filter_congr (fun a _ => by rw [hbcc a]))

/-- Witness for claim C5: A concrete `NORMAL` run: the tenant with an
attachment and an explicit mapping yields exactly one sent report. -/
theorem c5_report_recipient_resolution_witness :
    systemState [⟨"agency=a", [("f.csv", "x")], []⟩] = .NORMAL ∧
      (runEmails ⟨[], "from@x.com", "disc", "2026-01-01", "bkt", "r/", "s/"⟩
        [("agency=a", ["a@x.com"])] [⟨"agency=a", [("f.csv", "x")], []⟩]).1.sent_reports = 1 :=
  ⟨by decide,
    (c5_report_recipient_resolution
      ⟨[], "from@x.com", "disc", "2026-01-01", "bkt", "r/", "s/"⟩
      [("agency=a", ["a@x.com"])] [⟨"agency=a", [("f.csv", "x")], []⟩]
      (by decide)).2.2.2.trans (by decide)⟩

theorem mem_outageEmailsOf (cfg : Config) :
    ∀ e ∈ outageEmailsOf cfg, e = mkOutageEmail cfg := by
  intro e he
  unfold outageEmailsOf at he
  by_cases h : cfg.defaultTo.isEmpty
  · simp [h] at he
  · simp [h] at he
    exact he

theorem dictGet_of_find?_none (m : List (String × List String)) (k : String)
    (h : m.find? (fun kv => kv.1 == k) = none) : dictGet m k = [] := by
  unfold dictGet
  rw [h]
  rfl

theorem dictGet_cons_ne (t : String) (v : List String) (m : List (String × List String))
    (f : String) (h : t ≠ f) : dictGet ((t, v) :: m) f = dictGet m f := by
  unfold dictGet
  rw [List.find?_cons]
  have : ((t, v).1 == f) = false := by simpa using h
  rw [this]

/-- Claim C10: A recipient map binding a tenant to the empty list (or to a
value whose normalisation is empty) yields exactly the same notification
decisions as a map with no entry for that tenant: the whole run is
unchanged, the tenant's REPORT recipients fall back to the default list,
and no per-tenant `TENANT_NO_DATA` notification is attempted for it. -/
theorem c10_empty_binding_equals_absent (cfg : Config) (ags : List Agency)
    (m : List (String × List String)) (t : String) (v : List String)
    (hm : m.find? (fun kv => kv.1 == t) = none)
    (hv : get_explicit_dl_for_agency t ((t, v) :: m) = []) :
    runEmails cfg ((t, v) :: m) ags = runEmails cfg m ags ∧
    get_report_recipients_for_agency t ((t, v) :: m) cfg.defaultTo = cfg.defaultTo ∧
    ∀ e ∈ (runEmails cfg ((t, v) :: m) ags).2, e.kind = .noDataAgency →
      e.agency ≠ some t := by
  have hedl : ∀ f, get_explicit_dl_for_agency f ((t, v) :: m) =
      get_explicit_dl_for_agency f m := by
    intro f
    by_cases hf : t = f
    · subst hf
      rw [hv]
      unfold get_explicit_dl_for_agency
      rw [dictGet_of_find?_none m t hm]
      rfl
    · unfold get_explicit_dl_for_agency
      rw [dictGet_cons_ne t v m f hf]
  have hrun : runEmails cfg ((t, v) :: m) ags = runEmails cfg m ags := by
    unfold runEmails
    exact congrArg (fun edl => runCore cfg edl ags) (funext hedl)
  refine ⟨hrun, ?_, ?_⟩
  · unfold get_report_recipients_for_agency
    rw [hv]
    rfl
  · intro e he hk
    unfold runEmails at he
    by_cases hc : no_data_all_case ags
    · rw [(runCore_outage cfg _ ags hc).1] at he
      have := mem_outageEmailsOf cfg e he
      rw [this] at hk
      exact Kind.noConfusion hk
    · rw [(runCore_normal cfg _ ags (by simpa using hc)).1] at he
      rw [List.mem_append, List.mem_append] at he
      rcases he with (he | he) | he
      · exact absurd (kind_reportEmailsOf cfg _ ags e he) (by rw [hk]; decide)
      · obtain ⟨a, _, _, haDl, hEq⟩ := mem_noDataAgencyEmailsOf cfg _ ags e he
        intro hAg
        rw [hEq] at hAg
        have hfold : a.folder = t := by
          simpa [mkNoDataAgencyEmail] using hAg
        rw [hfold] at haDl
        rw [hv] at haDl
        simp at haDl
      · exact absurd (kind_aggEmailsOf cfg ags e he) (by rw [hk]; decide)

/-- Witness for claim C10: A concrete map binding a tenant to a
whitespace-only value behaves exactly like the empty map. -/
theorem c10_empty_binding_equals_absent_witness :
    runEmails ⟨["d@x.com"], "from@x.com", "disc", "2026-01-01", "bkt", "r/", "s/"⟩
        [("agency=b", [" "])] [⟨"agency=b", [], [" hi "]⟩] =
      runEmails ⟨["d@x.com"], "from@x.com", "disc", "2026-01-01", "bkt", "r/", "s/"⟩ []
        [⟨"agency=b", [], [" hi "]⟩] :=
  (c10_empty_binding_equals_absent
    ⟨["d@x.com"], "from@x.com", "disc", "2026-01-01", "bkt", "r/", "s/"⟩
    [⟨"agency=b", [], [" hi "]⟩] [] "agency=b" [" "] (by decide) (by decide)).1

/-- Claim C7: With the map location configured, loading the recipient map
propagates an error — never silently yielding a map — if and only if the
fetch fails, the content is not valid JSON, or the top-level JSON value
is not an object; on success the loaded map is the field list with every
value normalised (an array to the non-empty stripped strings of its
elements, a string to a one-element list or the empty list, any other
value type to the empty list — see `normalizeValue`). -/
theorem c7_recipient_map_loading (bucketName key : String) (outcome : FetchOutcome)
    (dflt : List (String × List String)) (hb : bucketName ≠ "") (hk : key ≠ "") :
    ((∃ e, load_json_from_s3_bucket_key bucketName key outcome dflt = .error e) ↔
      ((∃ e, outcome = .clientError e) ∨ (∃ e, outcome = .invalidJson e) ∨
        (∃ j, outcome = .parsed j ∧ ∀ kvs, j ≠ .obj kvs))) ∧
    (∀ kvs, outcome = .parsed (.obj kvs) →
      load_json_from_s3_bucket_key bucketName key outcome dflt =
        .ok (kvs.map (fun kv => (kv.1, normalizeValue kv.2)))) := by
  have hcond : (bucketName = "" || key = "") = false := by
    simp [hb, hk]
  constructor
  · unfold load_json_from_s3_bucket_key
    rw [hcond]
    simp only [Bool.false_eq_true, if_false]
    cases outcome with
    | clientError e => simp
    | invalidJson e => simp
    | parsed j =>
      cases j with
      | str s => simp
      | num n => simp
      | bool b => simp
      | null => simp
      | arr xs => simp
      | obj kvs =>
        simp only [Except.ok.injEq]
        constructor
        · intro ⟨e, hE⟩
          exact absurd hE (by simp)
        · intro hE
          rcases hE with ⟨e, hE⟩ | ⟨e, hE⟩ | ⟨j, hE, hAll⟩
          · exact absurd hE (by simp)
          · exact absurd hE (by simp)
          · injection hE with hj
            exact absurd rfl (hj ▸ hAll kvs)
  · intro kvs hO
    subst hO
    unfold load_json_from_s3_bucket_key
    rw [hcond]
    rfl

/-- Witness for claim C7: Scenario C — a map with the single field
tenant=x bound to the address string a@b.com normalises to a one-element
list for that tenant. -/
theorem c7_recipient_map_loading_witness :
    load_json_from_s3_bucket_key "bkt" "key.json"
        (.parsed (.obj [("tenant=x", Json.str "a@b.com")])) [] =
      .ok [("tenant=x", ["a@b.com"])] := by
  rw [(c7_recipient_map_loading "bkt" "key.json"
    (.parsed (.obj [("tenant=x", Json.str "a@b.com")])) [] (by decide) (by decide)).2
    [("tenant=x", Json.str "a@b.com")] rfl]
  rfl

theorem foldl_extend {α β : Type} (F : List β → α → List β) (g : α → List β)
    (hF : ∀ acc x, F acc x = acc ++ g x) :
    ∀ (l : List α) (acc : List β), l.foldl F acc = acc ++ l.flatMap g := by
  intro l
  induction l with
  | nil => intro acc; simp
  | cons x l ih =>
    intro acc
    rw [List.foldl_cons, hF, ih, List.flatMap_cons, List.append_assoc]

theorem flatMap_if_eq_filterMap_map {α β γ : Type} (c : α → Bool) (f : α → β) (r : β → γ)
    (l : List α) :
    l.flatMap (fun k => if c k then [r (f k)] else []) =
      (l.filterMap (fun k => if c k then some (f k) else none)).map r := by
  induction l with
  | nil => simp
  | cons a l ih =>
    by_cases h : c a
    · simp [h, ih]
    · simp [h, ih]

theorem collect_eq_flatMap (st : Store) (cadencePfx startDate agencyPfxSummary : String) :
    collectSummaryBlocks st cadencePfx startDate agencyPfxSummary =
      (discoveredTxtKeys st cadencePfx startDate agencyPfxSummary).flatMap (fun k =>
        if !(read_text_file st k = "") then
          [mkBlock (labelOf agencyPfxSummary k) (read_text_file st k)]
        else []) := by
  have h4 : ∀ (keys : List String) (acc : List String),
      keys.foldl (fun acc4 txtKey =>
          let txtContent := read_text_file st txtKey
          if !(txtContent = "") then
            acc4 ++ [mkBlock (labelOf agencyPfxSummary txtKey) txtContent]
          else acc4) acc =
        acc ++ keys.flatMap (fun k =>
          if !(read_text_file st k = "") then
            [mkBlock (labelOf agencyPfxSummary k) (read_text_file st k)]
          else []) := by
    intro keys acc
    refine foldl_extend _ _ ?_ keys acc
    intro a x
    by_cases hc : read_text_file st x = ""
    · simp [hc]
    · simp [hc]
  have h3 : ∀ (ipfs : List String) (acc : List String),
      ipfs.foldl (fun acc3 ipfPfx =>
          (list_keys_with_suffix st (targetOf ipfPfx cadencePfx startDate) ".txt").foldl
            (fun acc4 txtKey =>
              let txtContent := read_text_file st txtKey
              if !(txtContent = "") then
                acc4 ++ [mkBlock (labelOf agencyPfxSummary txtKey) txtContent]
              else acc4) acc3) acc =
        acc ++ ipfs.flatMap (fun ipfPfx =>
          (list_keys_with_suffix st (targetOf ipfPfx cadencePfx startDate) ".txt").flatMap
            (fun k => if !(read_text_file st k = "") then
              [mkBlock (labelOf agencyPfxSummary k) (read_text_file st k)]
            else [])) := by
    intro ipfs acc
    refine foldl_extend _ _ ?_ ipfs acc
    intro a x
    exact h4 _ a
  have h2 : ∀ (ipvs : List String) (acc : List String),
      ipvs.foldl (fun acc2 ipvPfx =>
          (st.children ipvPfx).foldl (fun acc3 ipfPfx =>
            (list_keys_with_suffix st (targetOf ipfPfx cadencePfx startDate) ".txt").foldl
              (fun acc4 txtKey =>
                let txtContent := read_text_file st txtKey
                if !(txtContent = "") then
                  acc4 ++ [mkBlock (labelOf agencyPfxSummary txtKey) txtContent]
                else acc4) acc3) acc2) acc =
        acc ++ ipvs.flatMap (fun ipvPfx =>
          (st.children ipvPfx).flatMap (fun ipfPfx =>
            (list_keys_with_suffix st (targetOf ipfPfx cadencePfx startDate) ".txt").flatMap
              (fun k => if !(read_text_file st k = "") then
                [mkBlock (labelOf agencyPfxSummary k) (read_text_file st k)]
              else []))) := by
    intro ipvs acc
    refine foldl_extend _ _ ?_ ipvs acc
    intro a x
    exact h3 _ a
  have h1 : ∀ (bps : List String) (acc : List String),
      bps.foldl (fun acc1 bypassPfx =>
          (st.children bypassPfx).foldl (fun acc2 ipvPfx =>
            (st.children ipvPfx).foldl (fun acc3 ipfPfx =>
              (list_keys_with_suffix st (targetOf ipfPfx cadencePfx startDate) ".txt").foldl
                (fun acc4 txtKey =>
                  let txtContent := read_text_file st txtKey
                  if !(txtContent = "") then
                    acc4 ++ [mkBlock (labelOf agencyPfxSummary txtKey) txtContent]
                  else acc4) acc3) acc2) acc1) acc =
        acc ++ bps.flatMap (fun bypassPfx =>
          (st.children bypassPfx).flatMap (fun ipvPfx =>
            (st.children ipvPfx).flatMap (fun ipfPfx =>
              (list_keys_with_suffix st (targetOf ipfPfx cadencePfx startDate) ".txt").flatMap
                (fun k => if !(read_text_file st k = "") then
                  [mkBlock (labelOf agencyPfxSummary k) (read_text_file st k)]
                else [])))) := by
    intro bps acc
    refine foldl_extend _ _ ?_ bps acc
    intro a x
    exact h2 _ a
  unfold collectSummaryBlocks discoveredTxtKeys
  rw [h1]
  rw [List.nil_append]
  rw [List.flatMap_assoc]
  refine congrArg _ (funext (fun bp => ?_))
  rw [List.flatMap_assoc]
  refine congrArg _ (funext (fun ip => ?_))
  rw [List.flatMap_assoc]

/-- Claim C9: For every tenant, the fragments appear in the composed
summary-block list in discovery order — the order produced by the nested
(channel, ip-version, ip-field, object-listing) traversal — never
reordered: the collected block list is exactly the image, block by
block, of the discovery-ordered fragment list. -/
theorem c9_fragments_in_discovery_order (st : Store)
    (cadencePfx startDate agencyPfxSummary : String) :
    collectSummaryBlocks st cadencePfx startDate agencyPfxSummary =
      (discoveredFragments st cadencePfx startDate agencyPfxSummary).map
        (fun lc => mkBlock lc.1 lc.2) := by
  rw [collect_eq_flatMap]
  unfold discoveredFragments
  rw [flatMap_if_eq_filterMap_map (fun k => !(read_text_file st k = ""))
    (fun k => (labelOf agencyPfxSummary k, read_text_file st k))
    (fun lc => mkBlock lc.1 lc.2)]

/-- Claim C8 (amended): every collected summary fragment's stored
content is the object's decoded content with line endings normalised and
surrounding whitespace stripped (see `read_text_file`), an object whose
content is empty after this normalisation yields no fragment, and the
fragment's label is the object key with every occurrence of the tenant's
fragment-root replaced by nothing and all leading forward slashes
stripped. -/
theorem c8_fragment_content_and_label (st : Store)
    (cadencePfx startDate agencyPfxSummary b : String) :
    b ∈ collectSummaryBlocks st cadencePfx startDate agencyPfxSummary ↔
      ∃ k ∈ discoveredTxtKeys st cadencePfx startDate agencyPfxSummary,
        read_text_file st k ≠ "" ∧
        b = mkBlock (pyLstripSlash (pyReplace k agencyPfxSummary ""))
              (read_text_file st k) := by
  rw [collect_eq_flatMap, List.mem_flatMap]
  constructor
  · intro ⟨k, hk, hb⟩
    by_cases hc : read_text_file st k = ""
    · simp [hc] at hb
    · refine ⟨k, hk, hc, ?_⟩
      simp [hc] at hb
      rw [hb]
      rfl
  · intro ⟨k, hk, hc, hb⟩
    refine ⟨k, hk, ?_⟩
    rw [if_pos (by simpa using hc)]
    rw [hb]
    exact List.mem_singleton.mpr rfl

/-- Counterexample to claim C8 as stated: on a key that contains the
tenant's fragment-root twice, the code's label (replace-all, then strip
all leading slashes) differs from "the object key with the tenant's
fragment-root prefix removed and the leading forward slash stripped"
(`labelPerSpec`): the run collects the block labelled `x.txt`, not the
spec-labelled block. -/
theorem c8_label_counterexample :
    collectSummaryBlocks cexC8Store "c/" "d" "s/a/" = [mkBlock "x.txt" "hello"] ∧
    labelPerSpec "s/a/" "s/a/s/a/x.txt" = "s/a/x.txt" ∧
    labelOf "s/a/" "s/a/s/a/x.txt" ≠ labelPerSpec "s/a/" "s/a/s/a/x.txt" ∧
    mkBlock (labelPerSpec "s/a/" "s/a/s/a/x.txt") (read_text_file cexC8Store "s/a/s/a/x.txt") ∉
      collectSummaryBlocks cexC8Store "c/" "d" "s/a/" := by
  refine ⟨by decide, by decide, by decide, by decide⟩

end S3EmailReport
